/-
Verification of the media-archive incremental sync engine.

This file gives a shallow embedding of the parts of the repository's Python
scripts that carry the specification's invariants:

  * `scripts/trakt_sync.py`   — normalization, dedup keys, merge, frontend
                                mapping, cursor update, OAuth refresh flow,
                                TMDB lookups,
  * `scripts/lastfm_sync.py`  — dedup/merge of scrobbles, newest-timestamp
                                computation, incremental resumption,
  * `scripts/enrich_posters.py` — memoized catalog lookups for movies.

Python dictionaries with a fixed set of possibly-absent keys are embedded as
structures of `Option` fields (`none` = key absent or value `None`).  Python
truthiness (`x or y`, `if x:`) is embedded explicitly: `None`, `""`, `0`,
empty list/dict are falsy.  I/O is embedded by explicit oracles (functions
from requests to responses) together with traces of the effects performed.
Timestamps that the scripts compare and shift arithmetically are embedded as
integers (seconds); ISO-8601 UTC timestamp strings that are only compared or
truncated are kept as strings.
-/
import Mathlib

namespace MediaArchive

/-! ## Python truthiness helpers -/

/-- Python `a or b` for optional strings: `None` and `""` are falsy. -/
def pyOrStr (a b : Option String) : Option String :=
  match a with
  | some s => if s = "" then b else some s
  | none => b

/-- Python `a or b` for optional integers: `None` and `0` are falsy. -/
def pyOrInt (a b : Option Int) : Option Int :=
  match a with
  | some n => if n = 0 then b else some n
  | none => b

/-- Python truthiness test for an optional integer (`if x:`): `none` for a
falsy value (`None` or `0`), the value itself otherwise. -/
def pyTruthyInt : Option Int → Option Int
  | some n => if n = 0 then none else some n
  | none => none

/-- Python truthiness test for an optional string (`if x:`): `none` for a
falsy value (`None` or `""`), the value itself otherwise. -/
def pyTruthyStr : Option String → Option String
  | some s => if s = "" then none else some s
  | none => none

/-! ## Data model: records of `trakt_sync.py`

`normalize_movie_item` / `normalize_episode_item` produce dicts with a fixed
key set; `movie_to_frontend` / `episode_to_frontend` produce dicts with
another fixed key set (`{k: v for k, v in data.items() if v is not None}`
drops exactly the `None`-valued keys, which `Option` fields model).  A single
structure covers the union of the movie key sets, since both shapes flow
through the same merge (`add_or_update_verbose`) and the same YAML files. -/

/-- The `ids` dict attached by Trakt to a movie, show, or episode. -/
structure IdsDict where
  trakt : Option Int := none
  slug : Option String := none
  imdb : Option String := none
  tmdb : Option Int := none
  tvdb : Option Int := none
deriving DecidableEq, Repr

/-- A TMDB JSON response body, restricted to the fields the scripts read:
the detail fields read by the enrichment assembly in `main` and by
`movie_to_frontend`, plus `movie_results` (read from `/find` responses) and
`results` (read from `/search` responses). -/
structure TmdbBlob where
  id : Option Int := none
  title : Option String := none
  original_title : Option String := none
  overview : Option String := none
  poster_path : Option String := none
  backdrop_path : Option String := none
  runtime : Option Int := none
  movie_results : List Int := []
  results : List Int := []
deriving DecidableEq, Repr

/-- A movie record: union of the normalized shape produced by
`normalize_movie_item` (+ the `tmdb` enrichment dict attached in `main`) and
the frontend shape produced by `movie_to_frontend`.  In the Python dicts the
key `"tmdb"` holds the enrichment dict in normalized records and the TMDB id
in frontend records; the two usages are split into `tmdb_info` and `tmdb_id`.
-/
structure MovieRec where
  type : Option String := none
  history_id : Option Int := none
  title : Option String := none
  year : Option Int := none
  ids : Option IdsDict := none
  watched_on : Option String := none
  action : Option String := none
  tmdb_info : Option TmdbBlob := none
  imdb : Option String := none
  tmdb_id : Option Int := none
  trakt : Option Int := none
  slug : Option String := none
  plays : Option Int := none
  poster : Option String := none
  backdrop : Option String := none
  source : Option String := none
  runtime : Option Int := none
  title_de : Option String := none
  overview_de : Option String := none
deriving DecidableEq, Repr

/-- An episode record as produced by `normalize_episode_item` (the nested
`ids` dict `{"show": ..., "episode": ...}` is split into two fields). -/
structure EpisodeRec where
  type : Option String := none
  history_id : Option Int := none
  /-- the Python key `"show"` (`show` is a Lean keyword) -/
  show_title : Option String := none
  year : Option Int := none
  show_ids : Option IdsDict := none
  episode_ids : Option IdsDict := none
  season : Option Int := none
  episode : Option Int := none
  title : Option String := none
  watched_on : Option String := none
  action : Option String := none
deriving DecidableEq, Repr

/-! ## Dedup keys (`movie_key` / `episode_key`) -/

/-- Possible values of `movie_key`: the Python function returns either the
tuple `("hist", history_id)`, the bare integer `ids["trakt"]`, or the tuple
`("movie-fallback", title, year, watched_on)`; the three shapes are distinct
Python values, hence distinct constructors. -/
inductive MovieKey where
  | hist (h : Int)
  | trakt (t : Int)
  | fallback (title : Option String) (year : Option Int) (watched_on : Option String)
deriving DecidableEq, Repr

/-- `movie_key` from `trakt_sync.py`: per-watch key via `history_id`, with a
trakt-id (`ids.get("trakt") or ...`, so a `0` id is falsy) and a
title/year/watched_on fallback. -/
def movie_key (r : MovieRec) : MovieKey :=
  match r.history_id with
  | some h => .hist h
  | none =>
    let ids := r.ids.getD {}
    match ids.trakt with
    | some t => if t = 0 then .fallback r.title r.year r.watched_on else .trakt t
    | none => .fallback r.title r.year r.watched_on

/-- Possible values of `episode_key`: `("hist", history_id)`,
`("ep", trakt_episode_id, watched_on)`, or
`("ep-fallback", show, season, episode, watched_on)`. -/
inductive EpisodeKey where
  | hist (h : Int)
  | ep (t : Int) (watched_on : Option String)
  | fallback (show_title : Option String) (season : Option Int) (episode : Option Int)
      (watched_on : Option String)
deriving DecidableEq, Repr

/-- `episode_key` from `trakt_sync.py` (`if k:` makes a `0` trakt id falsy). -/
def episode_key (r : EpisodeRec) : EpisodeKey :=
  match r.history_id with
  | some h => .hist h
  | none =>
    let ids := r.episode_ids.getD {}
    match ids.trakt with
    | some t => if t = 0 then .fallback r.show_title r.season r.episode r.watched_on
                else .ep t r.watched_on
    | none => .fallback r.show_title r.season r.episode r.watched_on

/-! ## Merge (`add_or_update_verbose`)

The Python function builds `index = {key_fn(r): i for i, r in
enumerate(records) if key_fn(r) is not None}` (a dict comprehension: later
records win on key collisions; both key functions are total, so the
`is not None` filter never fires), then for each new item either overwrites
`records[index[k]]` in place or appends and records the new position.  The
index dict is embedded as a function `K → Option Nat`, the in-place update as
`List.set`.  The `log(...)` calls are output-only and are omitted. -/

/-- Result triple of `add_or_update_verbose`. -/
structure MergeResult (α : Type) where
  records : List α
  new_count : Nat
  upd_count : Nat
deriving DecidableEq, Repr

/-- The index-building dict comprehension (later entries overwrite earlier
ones, as in a Python dict comprehension). -/
def buildIndexAux {α K : Type} [DecidableEq K] (key : α → K) :
    List α → Nat → (K → Option Nat) → (K → Option Nat)
  | [], _, m => m
  | r :: rs, i, m => buildIndexAux key rs (i + 1) (fun q => if q = key r then some i else m q)

/-- `index = {key_fn(r): i for i, r in enumerate(records)}`. -/
def buildIndex {α K : Type} [DecidableEq K] (key : α → K) (records : List α) :
    K → Option Nat :=
  buildIndexAux key records 0 (fun _ => none)

/-- The merge loop of `add_or_update_verbose`. -/
def aouLoop {α K : Type} [DecidableEq K] (key : α → K) :
    List α → (K → Option Nat) → Nat → Nat → List α → MergeResult α
  | records, _, new_c, upd_c, [] => ⟨records, new_c, upd_c⟩
  | records, index, new_c, upd_c, it :: rest =>
    match index (key it) with
    | some i => aouLoop key (records.set i it) index new_c (upd_c + 1) rest
    | none =>
      aouLoop key (records ++ [it])
        (fun q => if q = key it then some records.length else index q)
        (new_c + 1) upd_c rest

/-- `add_or_update_verbose` from `trakt_sync.py`. -/
def add_or_update_verbose {α K : Type} [DecidableEq K] (records new_items : List α)
    (key_fn : α → K) : MergeResult α :=
  aouLoop key_fn records (buildIndex key_fn records) 0 0 new_items

/-! ## Frontend mapping (`movie_to_frontend`, `only_date`, `img_or_none`) -/

/-- `IMG_BASE` from `trakt_sync.py`. -/
def IMG_BASE : String := "https://image.tmdb.org/t/p"

/-- `only_date` from `trakt_sync.py`: `None`/`""` pass through as `None`,
otherwise the prefix of the ISO timestamp before the first `"T"` (the
`try`/`except` never fires: `str.split` does not raise). -/
def only_date (iso_ts : Option String) : Option String :=
  match iso_ts with
  | none => none
  | some s => if s = "" then none else some ((s.splitOn "T").headD s)

/-- `img_or_none` from `trakt_sync.py`. -/
def img_or_none (path : Option String) (variant : String) : Option String :=
  match path with
  | none => none
  | some p => if p = "" then none else some (IMG_BASE ++ "/" ++ variant ++ p)

/-- `movie_to_frontend` from `trakt_sync.py`.  Note that the output dict has
no `history_id` and no `ids` key, and its `watched_on` is truncated to a
date. -/
def movie_to_frontend (m : MovieRec) : MovieRec :=
  let ids := m.ids.getD {}
  let tmdb := m.tmdb_info.getD {}
  { title := m.title
    year := m.year
    imdb := ids.imdb
    tmdb_id := pyOrInt ids.tmdb tmdb.id
    trakt := ids.trakt
    slug := ids.slug
    plays := some 1
    watched_on := only_date m.watched_on
    poster := img_or_none tmdb.poster_path "w500"
    backdrop := img_or_none tmdb.backdrop_path "w780"
    source := some "trakt"
    runtime := tmdb.runtime
    title_de := pyOrStr tmdb.title (pyOrStr tmdb.original_title m.title)
    overview_de := tmdb.overview }

/-! ## `lastfm_sync.py`: scrobble records and `dedupe_merge` -/

/-- A scrobble row as built by `fetch_recent` in `lastfm_sync.py` (all keys
are always present, but several values may be `None`). -/
structure Scrobble where
  artist : Option String := none
  track : Option String := none
  album : Option String := none
  played_at_utc : Option String := none
  lastfm_url : Option String := none
  mbid_track : Option String := none
  mbid_artist : Option String := none
  mbid_album : Option String := none
  cover_url : Option String := none
  loved : Option Bool := none
  duration_sec : Option Int := none
  source : Option String := none
deriving DecidableEq, Repr

/-- The key function `k` inside `dedupe_merge`:
`(e.get("played_at_utc"), e.get("artist"), e.get("track"), e.get("album"))`. -/
def scrobble_key (e : Scrobble) :
    Option String × Option String × Option String × Option String :=
  (e.played_at_utc, e.artist, e.track, e.album)

/-- The loop of `dedupe_merge`: the Python `seen` set is embedded as a list
of keys queried by membership. -/
def dedupeLoop (seen : List (Option String × Option String × Option String × Option String))
    (merged : List Scrobble) : List Scrobble → List Scrobble
  | [] => merged
  | e :: rest =>
    if scrobble_key e ∈ seen then dedupeLoop seen merged rest
    else dedupeLoop (scrobble_key e :: seen) (merged ++ [e]) rest

/-- `dedupe_merge` from `lastfm_sync.py`: `seen = {k(e) for e in existing}`,
`merged = existing[:]`, then append the new items whose key is unseen. -/
def dedupe_merge (existing new_items : List Scrobble) : List Scrobble :=
  dedupeLoop (existing.map scrobble_key) existing new_items

/-! ## Cursor update of `trakt_sync.py`

The cursor section of `main` scans `movies_raw + episodes_raw` for the
lexicographically largest `watched_on` ISO string, parses it and writes
`newest - 1s`.  ISO-8601 UTC timestamp strings are order-isomorphic to their
time points, so timestamps are embedded as integer seconds; a raw item whose
`watched_on` is missing or empty (falsy, skipped by `if ts`) is `none`. -/

/-- The `newest_ts` scan in `main`:
`if ts and (newest_ts is None or ts > newest_ts): newest_ts = ts`. -/
def newest_go (newest : Option Int) : List (Option Int) → Option Int
  | [] => newest
  | ts :: rest =>
    match ts with
    | none => newest_go newest rest
    | some t =>
      match newest with
      | none => newest_go (some t) rest
      | some n => if t > n then newest_go (some t) rest else newest_go (some n) rest

/-- The newest observed `watched_on` over the run's raw items. -/
def newest_ts (items : List (Option Int)) : Option Int := newest_go none items

/-- The cursor value written at the end of a successful run:
`(parse_iso(newest_ts) - timedelta(seconds=1))`; `parse_iso` cannot fail in
the integer-seconds embedding.  `none` means the cursor file is left
untouched (`Keine neuen watched_at-Zeiten gefunden`). -/
def post_run_cursor (items : List (Option Int)) : Option Int :=
  (newest_ts items).map (fun t => t - 1)

/-! ## OAuth refresh flow (`trakt_refresh_tokens`, `save_tokens_file`,
`trakt_get`)

The network is embedded as oracles: a function from GET-call index to HTTP
status for `SESSION.get`, and one response value for the
`POST /oauth/token` call.  The side effects of a call are collected in a
`TraktTrace`. -/

/-- Outcome of the `POST /oauth/token` request inside `trakt_refresh_tokens`. -/
inductive RefreshResp where
  /-- `requests.RequestException` was raised -/
  | netError
  /-- response with `status_code ≠ 200` -/
  | httpStatus (code : Nat)
  /-- a 200 response; the two fields are `tok.get("access_token")` and
  `tok.get("refresh_token")` -/
  | tokens (access : Option String) (refresh_tok : Option String)
deriving DecidableEq, Repr

/-- Effects performed during a `trakt_get` / `trakt_refresh_tokens` call. -/
structure TraktTrace where
  get_calls : Nat := 0
  refresh_calls : Nat := 0
  /-- attempts to write `.trakt_tokens.json` (`save_tokens_file` is called) -/
  token_write_attempts : Nat := 0
  /-- whether the write inside `save_tokens_file` succeeded; the `except:
  pass` swallows a failure -/
  token_write_succeeded : Bool := false
  msgs : List String := []
deriving DecidableEq, Repr

/-- Return value of `trakt_refresh_tokens`: `(ok, access, refresh)`. -/
structure RefreshResult where
  ok : Bool
  access : Option String := none
  refresh_tok : Option String := none
deriving DecidableEq, Repr

/-- `save_tokens_file` from `trakt_sync.py`: attempts one write; any
exception is swallowed (`except Exception: pass`), nothing is logged and
nothing is returned in either case. -/
def save_tokens_file (write_ok : Bool) : TraktTrace :=
  { token_write_attempts := 1, token_write_succeeded := write_ok }

/-- `trakt_refresh_tokens` from `trakt_sync.py`, parameterized by the token
endpoint's response and by whether the token-file write succeeds.  String
truthiness: `if not (new_access and new_refresh)` fails for `None` and `""`. -/
def trakt_refresh_tokens (resp : RefreshResp) (write_ok : Bool) :
    RefreshResult × TraktTrace :=
  match resp with
  | .netError =>
    (⟨false, none, none⟩, { refresh_calls := 1, msgs := ["Token-Refresh exception"] })
  | .httpStatus _ =>
    (⟨false, none, none⟩, { refresh_calls := 1, msgs := ["Token-Refresh failed"] })
  | .tokens a r =>
    match a, r with
    | some as, some rs =>
      if as ≠ "" ∧ rs ≠ "" then
        let w := save_tokens_file write_ok
        (⟨true, some as, some rs⟩,
          { refresh_calls := 1
            token_write_attempts := w.token_write_attempts
            token_write_succeeded := w.token_write_succeeded
            msgs := ["Refreshed Trakt access token."] })
      else
        (⟨false, none, none⟩,
          { refresh_calls := 1, msgs := ["Token-Refresh: Antwort ohne Tokens."] })
    | _, _ =>
      (⟨false, none, none⟩,
        { refresh_calls := 1, msgs := ["Token-Refresh: Antwort ohne Tokens."] })

/-- Outcome of a `trakt_get` call. -/
inductive GetResult where
  /-- the response is returned (status below 400) -/
  | resp (status : Nat)
  /-- `r.raise_for_status()` raised `requests.HTTPError` -/
  | httpError (status : Nat)
  /-- `RuntimeError("Token-Refresh fehlgeschlagen.")` -/
  | authExpired
deriving DecidableEq, Repr

/-- `requests.Response.raise_for_status`: raises exactly for 4xx/5xx. -/
def raise_for_status (s : Nat) : GetResult :=
  if 400 ≤ s ∧ s < 600 then .httpError s else .resp s

/-- `trakt_get` from `trakt_sync.py`: `statuses n` is the HTTP status of the
`n`-th `SESSION.get` issued by this call.  On a 401 (with `retry_on_401`) it
refreshes once and retries the GET exactly once; the retried response goes
through `raise_for_status` with no further refresh. -/
def trakt_get (statuses : Nat → Nat) (resp : RefreshResp) (write_ok : Bool)
    (retry_on_401 : Bool) : GetResult × TraktTrace :=
  let s1 := statuses 0
  if s1 = 401 ∧ retry_on_401 = true then
    let (rr, tr) := trakt_refresh_tokens resp write_ok
    if rr.ok then
      (raise_for_status (statuses 1), { tr with get_calls := 2 })
    else
      (.authExpired, { tr with get_calls := 1 })
  else
    (raise_for_status s1, { get_calls := 1 })

/-! ## TMDB lookups in `trakt_sync.py` (`tmdb_get`,
`enrich_movie_by_tmdb_ids`)

`tmdb_get` issues one uncached `requests.get` per call.  A request's identity
(the claim's "lookup shape") is its path, its `language` parameter
(defaulted to `"de-DE"`; no caller in `trakt_sync.py` overrides it) and, for
search requests, the `query`/`year` parameters.  The constant
`append_to_response` / `external_source` parameters are determined by the
path and are omitted.  The oracle maps a request to its parsed JSON body, or
`none` for a non-200 status or a network error. -/

/-- A TMDB HTTP request as issued by `tmdb_get`. -/
structure TmdbReq where
  path : String
  language : String
  query : Option String := none
  year : Option Int := none
deriving DecidableEq, Repr

/-- Responses of the TMDB service, by request. -/
def TmdbOracle : Type := TmdbReq → Option TmdbBlob

/-- `tmdb_get` from `trakt_sync.py`: every call issues exactly one request
(there is no cache), with `language` defaulting to `"de-DE"`. -/
def tmdb_get (o : TmdbOracle) (path : String) (query : Option String)
    (year : Option Int) : Option TmdbBlob × List TmdbReq :=
  let req : TmdbReq := ⟨path, "de-DE", query, year⟩
  (o req, [req])

/-- `enrich_movie_by_tmdb_ids` from `trakt_sync.py`: try the direct id, then
the reverse `/find` lookup by IMDB id, then free-text `/search/movie`;
returns the movie detail dict (or `none` for `{}`) together with the
requests issued.  Python truthiness: a `0` TMDB id and an empty IMDB id are
falsy; `if year:` drops a `0` year. -/
def enrich_movie_by_tmdb_ids (o : TmdbOracle) (tmdb_id : Option Int)
    (imdb_id : Option String) (title : String) (year : Option Int) :
    Option TmdbBlob × List TmdbReq :=
  let step1 : Option TmdbBlob × List TmdbReq :=
    match tmdb_id with
    | some t =>
      if t = 0 then (none, []) else tmdb_get o ("/movie/" ++ toString t) none none
    | none => (none, [])
  match step1 with
  | (some m, reqs1) => (some m, reqs1)
  | (none, reqs1) =>
    let step2 : Option TmdbBlob × List TmdbReq :=
      match imdb_id with
      | some im =>
        if im = "" then (none, []) else
          let (data, rqF) := tmdb_get o ("/find/" ++ im) none none
          match data with
          | some d =>
            match d.movie_results with
            | [] => (none, rqF)
            | hit :: _ =>
              let (det, rqD) := tmdb_get o ("/movie/" ++ toString hit) none none
              (det, rqF ++ rqD)
          | none => (none, rqF)
      | none => (none, [])
    match step2 with
    | (some m, reqs2) => (some m, reqs1 ++ reqs2)
    | (none, reqs2) =>
      let yr : Option Int := match year with
        | some y => if y = 0 then none else some y
        | none => none
      let (sr, rqS) := tmdb_get o "/search/movie" (some title) yr
      match sr with
      | some d =>
        match d.results with
        | [] => (none, reqs1 ++ reqs2 ++ rqS)
        | hit :: _ =>
          let (det, rqD) := tmdb_get o ("/movie/" ++ toString hit) none none
          (det, reqs1 ++ reqs2 ++ rqS ++ rqD)
      | none => (none, reqs1 ++ reqs2 ++ rqS)

/-- The movie-enrichment loop of `main` in `trakt_sync.py`, restricted to
its TMDB traffic: each normalized movie is enriched independently with
`enrich_movie_by_tmdb_ids(ids.get("tmdb"), ids.get("imdb"),
m.get("title") or "", m.get("year"))`; the requests of all events are
concatenated.  (The assembly of the `m["tmdb"]` dict from the response does
not influence which requests are issued and is not needed by any claim.) -/
def sync_enrich_movie_requests (o : TmdbOracle) : List MovieRec → List TmdbReq
  | [] => []
  | m :: rest =>
    let ids := m.ids.getD {}
    let (_, reqs) :=
      enrich_movie_by_tmdb_ids o ids.tmdb ids.imdb
        ((pyOrStr m.title (some "")).getD "") m.year
    reqs ++ sync_enrich_movie_requests o rest

/-! ## Memoized movie lookups in `enrich_posters.py`

The movie section of `main` (the `find_cache` / `movie_def_cache` /
`movie_de_cache` part) is embedded with the caches as functions with an
explicit "key present" layer: `movie_def_cache[mid] = ... if 200 else None`
stores an entry even on failure, so the outer `Option` is presence in the
dict and the inner `Option` is the stored value.  `find_cache` stores the
parsed `/find` response, of which only `movie_results` is read here; a
non-200 response is stored as `{}` (no results).  Record-field updates on
the movie rows do not influence cache or request behaviour and are omitted;
only the issued requests matter to the claims. -/

/-- A catalog request issued by the movie section of `enrich_posters.py`;
the three call sites build three distinct URL shapes. -/
inductive CatReq where
  /-- `GET /find/{imdb_id}?external_source=imdb_id` -/
  | findByImdb (imdb : String)
  /-- `GET /movie/{mid}` in the default language -/
  | movieDef (mid : Int)
  /-- `GET /movie/{mid}?language={lang}` -/
  | movieLang (mid : Int) (lang : String)
deriving DecidableEq, Repr

/-- Responses of the catalog service for the three movie-section requests
(`none` = non-200 status). -/
structure PosterOracle where
  find : String → Option (List Int)
  detail : Int → Option TmdbBlob
  detailLang : Int → String → Option TmdbBlob

/-- The three run-scoped caches of the movie section. -/
structure PosterState where
  find_cache : String → Option (List Int)
  movie_def_cache : Int → Option (Option TmdbBlob)
  movie_de_cache : Int → Option (Option TmdbBlob)

/-- All caches start empty. -/
def emptyPosterState : PosterState :=
  ⟨fun _ => none, fun _ => none, fun _ => none⟩

/-- `find_by_imdb` from `enrich_posters.py`: serve from `find_cache`, else
issue the request and cache the result (a non-200 response is cached as the
empty dict, i.e. no `movie_results`). -/
def find_by_imdb (o : PosterOracle) (S : PosterState) (imdb : String) :
    List Int × PosterState × List CatReq :=
  match S.find_cache imdb with
  | some v => (v, S, [])
  | none =>
    let v := (o.find imdb).getD []
    (v, { S with find_cache := fun q => if q = imdb then some v else S.find_cache q },
      [.findByImdb imdb])

/-- The `movie_def_cache` step: `if mid not in movie_def_cache:` fetch and
store (also storing `None` on failure). -/
def movieDefStep (o : PosterOracle) (S : PosterState) (mid : Int) :
    PosterState × List CatReq :=
  match S.movie_def_cache mid with
  | some _ => (S, [])
  | none =>
    ({ S with movie_def_cache :=
        fun q => if q = mid then some (o.detail mid) else S.movie_def_cache q },
      [.movieDef mid])

/-- The `movie_de_cache` step: localized detail lookup, cached per id. -/
def movieDeStep (o : PosterOracle) (lang : String) (S : PosterState) (mid : Int) :
    PosterState × List CatReq :=
  match S.movie_de_cache mid with
  | some _ => (S, [])
  | none =>
    ({ S with movie_de_cache :=
        fun q => if q = mid then some (o.detailLang mid lang) else S.movie_de_cache q },
      [.movieLang mid lang])

/-- The `mid` resolution at the top of the movie loop of
`enrich_posters.py`: `mid = m.get("tmdb")` (a `0` id is falsy), else a
`/find` reverse lookup by the record's IMDB id, taking the first movie hit. -/
def resolveMid (o : PosterOracle) (S : PosterState) (m : MovieRec) :
    Option Int × PosterState × List CatReq :=
  match pyTruthyInt m.tmdb_id with
  | some t => (some t, S, [])
  | none =>
    match pyTruthyStr m.imdb with
    | some im =>
      let (res, S', rq) := find_by_imdb o S im
      match res with
      | [] => (none, S', rq)
      | hit :: _ => (some hit, S', rq)
    | none => (none, S, [])

/-- One iteration of the movie loop of `enrich_posters.py`: resolve `mid`,
`continue` if unresolved (`if not mid: continue`), then the default-language
and localized detail lookups through their caches. -/
def posterStep (o : PosterOracle) (lang : String) (S : PosterState) (m : MovieRec) :
    PosterState × List CatReq :=
  match resolveMid o S m with
  | (none, S1, reqs1) => (S1, reqs1)
  | (some mid, S1, reqs1) =>
    let (S2, reqs2) := movieDefStep o S1 mid
    let (S3, reqs3) := movieDeStep o lang S2 mid
    (S3, reqs1 ++ reqs2 ++ reqs3)

/-- The whole movie loop of `enrich_posters.py` over the loaded YAML rows,
returning the final caches and all issued requests in order. -/
def posterMovies (o : PosterOracle) (lang : String) :
    PosterState → List MovieRec → PosterState × List CatReq
  | S, [] => (S, [])
  | S, m :: rest =>
    let (S', rq) := posterStep o lang S m
    let (S'', rqs) := posterMovies o lang S' rest
    (S'', rq ++ rqs)

/-! ## Persistence-layer write path of `trakt_sync.py`

`yaml_dump` performs `path.parent.mkdir(parents=True, exist_ok=True)`
followed by an `open("w")` full write; the write section of `main` calls it
once for each of the two YAML files.  The `stat_path` logs and the tail
reads are read-only.  The filesystem mutations are traced as actions; a
backup would be a copy action, and no call site performs one. -/

/-- Filesystem mutations (reads are not traced). -/
inductive FsAction where
  /-- `path.parent.mkdir(parents=True, exist_ok=True)` for the given file -/
  | mkdirParents (file : String)
  /-- `path.open("w")` + `yaml.safe_dump`: full overwrite of the file -/
  | writeFile (file : String)
  /-- a copy of an existing file to a backup location (no call site) -/
  | copyFile (src : String) (dst : String)
deriving DecidableEq, Repr

/-- Whether an action is a backup copy. -/
def FsAction.isCopy : FsAction → Bool
  | .copyFile _ _ => true
  | _ => false

/-- `yaml_dump` from `trakt_sync.py`. -/
def yaml_dump_actions (path : String) : List FsAction :=
  [.mkdirParents path, .writeFile path]

/-- The write section of `main` (lines 600–614): dump the merged movie list,
then the merged episode list. -/
def write_section_actions (movies_yaml episodes_yaml : String) : List FsAction :=
  yaml_dump_actions movies_yaml ++ yaml_dump_actions episodes_yaml

/-! ## `yaml_load` (trakt) / `load_yaml` (lastfm)

Both loaders follow the same pattern:
missing file → `[]`; parse exception → warn and return `[]`; otherwise
`yaml.safe_load(...) or []`, which replaces only *falsy* parse results by
`[]` — a non-empty mapping or string passes through unchanged.  The parse
result is embedded as a small value universe. -/

/-- A parsed YAML document (non-recursive: the depth is irrelevant to the
loaders). -/
inductive YamlContent where
  /-- YAML `null` / empty document (Python `None`, falsy) -/
  | null
  /-- a list of `n` records -/
  | listVal (n : Nat)
  /-- a mapping -/
  | dictVal (entries : List (String × String))
  /-- a scalar string -/
  | strVal (s : String)
deriving DecidableEq, Repr

/-- Python truthiness of a parse result. -/
def yamlTruthy : YamlContent → Bool
  | .null => false
  | .listVal n => n ≠ 0
  | .dictVal entries => entries ≠ []
  | .strVal s => s ≠ ""

/-- What the loader finds at the path. -/
inductive LoadInput where
  /-- `path.exists()` is false -/
  | missing
  /-- `yaml.safe_load` (or the read) raises -/
  | unreadable
  /-- the file parses to the given document -/
  | parsed (v : YamlContent)
deriving DecidableEq, Repr

/-- `yaml_load` from `trakt_sync.py` (and, identically, `load_yaml` from
`lastfm_sync.py`): returns the loaded value together with whether a warning
was printed. -/
def yaml_load : LoadInput → YamlContent × Bool
  | .missing => (.listVal 0, false)
  | .unreadable => (.listVal 0, true)
  | .parsed v => (if yamlTruthy v then v else .listVal 0, false)

/-! ## Incremental resumption of `lastfm_sync.py`

`newest_uts_from_files` scans every persisted row for the largest parseable
`played_at_utc` (unparseable or missing timestamps are skipped with
`continue`); `iso_from_uts` / `fromisoformat` are inverse on the
second-resolution UTC strings involved, so rows are embedded as
`Option Int` unix timestamps.  `incremental_since_latest` then fetches with
`from = latest + 1`. -/

/-- The scan loop of `newest_uts_from_files`
(`if newest is None or uts > newest: newest = uts`). -/
def newest_uts_go (newest : Option Int) : List (Option Int) → Option Int
  | [] => newest
  | r :: rest =>
    match r with
    | none => newest_uts_go newest rest
    | some u =>
      match newest with
      | none => newest_uts_go (some u) rest
      | some n => if u > n then newest_uts_go (some u) rest else newest_uts_go (some n) rest

/-- `newest_uts_from_files` from `lastfm_sync.py`, over the concatenated
rows of all monthly files. -/
def newest_uts_from_files (rows : List (Option Int)) : Option Int :=
  newest_uts_go none rows

/-- The `from` parameter computed by `incremental_since_latest`:
`from_uts = latest + 1`, or no fetch at all when no file yields a
timestamp. -/
def incremental_from_uts (rows : List (Option Int)) : Option Int :=
  (newest_uts_from_files rows).map (fun latest => latest + 1)

/-- Service model of `user.getRecentTracks` with a `from` parameter: the
service returns only scrobbles whose unix timestamp is at least `from`
(an inclusive lower bound; under Last.fm's documented exclusive bound the
claims below hold a fortiori).  Without `from`, everything is returned. -/
def lastfm_fetch (remote : List Int) (from_uts : Option Int) : List Int :=
  match from_uts with
  | none => remote
  | some f => remote.filter (fun t => f ≤ t)

/-! ## Proof devices -/

/-- Characterization of the suffix that `dedupe_merge` appends (proved equal
to the loop below); used only inside proofs. -/
def dedupNew (seen : List (Option String × Option String × Option String × Option String)) :
    List Scrobble → List Scrobble
  | [] => []
  | e :: rest =>
    if scrobble_key e ∈ seen then dedupNew seen rest
    else e :: dedupNew (scrobble_key e :: seen) rest

/-- Invariant of the `enrich_posters.py` movie loop: the issued requests are
pairwise distinct, and every issued request has a cache entry (so it can
never be issued again). -/
def PosterInv (S : PosterState) (E : List CatReq) : Prop :=
  E.Nodup ∧
  (∀ i, CatReq.findByImdb i ∈ E → (S.find_cache i).isSome) ∧
  (∀ t, CatReq.movieDef t ∈ E → (S.movie_def_cache t).isSome) ∧
  (∀ t l, CatReq.movieLang t l ∈ E → (S.movie_de_cache t).isSome)

/-! ## Concrete inputs used by individual claims -/

/-- A normalized movie event as produced by `normalize_movie_item` (a movie
watched at `2024-01-02T03:04:05Z` with Trakt history id 7). -/
def c1_event : MovieRec :=
  { type := some "movie", history_id := some 7, title := some "A"
    year := some 2001
    ids := some { trakt := some 11, slug := some "a-2001", imdb := some "tt0000001",
                  tmdb := some 3 }
    watched_on := some "2024-01-02T03:04:05Z", action := some "watch" }

/-- First run: merge `c1_event` into the empty log. -/
def c1_first_run : MergeResult MovieRec := add_or_update_verbose [] [c1_event] movie_key

/-- What the first run persists: the merged records mapped through
`movie_to_frontend` (as `main` does before `yaml_dump`). -/
def c1_persisted : List MovieRec := c1_first_run.records.map movie_to_frontend

/-- Second run: merge the same fetched event into the persisted log. -/
def c1_second_run : MergeResult MovieRec :=
  add_or_update_verbose c1_persisted [c1_event] movie_key

/-- An event with Trakt history id 101. -/
def c2_e1 : MovieRec :=
  { type := some "movie", history_id := some 101, title := some "B"
    year := some 1999
    ids := some { trakt := some 21, tmdb := some 9 }
    watched_on := some "2024-03-04T05:06:07Z", action := some "watch" }

/-- The same subject watched at the same instant, but under Trakt history
id 102. -/
def c2_e2 : MovieRec := { c2_e1 with history_id := some 102 }

/-- A persisted movie record. -/
def c3_old : MovieRec :=
  { type := some "movie", history_id := some 55, title := some "Old Title"
    year := some 1984, watched_on := some "2024-05-06T07:08:09Z" }

/-- A refetched version of the same history entry with enrichment attached:
same key, different content. -/
def c3_new : MovieRec :=
  { c3_old with title := some "New Title", tmdb_info := some { id := some 42 } }

/-- A persisted scrobble. -/
def c3_s1 : Scrobble :=
  { artist := some "X", track := some "T", album := some "L"
    played_at_utc := some "2024-01-01T00:00:00Z", source := some "lastfm" }

/-- A refetched scrobble with the same dedup key but different content. -/
def c3_s1_dup : Scrobble := { c3_s1 with cover_url := some "https://img/cover.png" }

/-- A genuinely new scrobble. -/
def c3_s2 : Scrobble :=
  { artist := some "X", track := some "T2", album := some "L"
    played_at_utc := some "2024-01-01T00:03:00Z", source := some "lastfm" }

/-- An oracle under which `/movie/7` resolves. -/
def c6_oracle : TmdbOracle :=
  fun r => if r.path = "/movie/7" then some { id := some 7 } else none

/-- A first watch of the movie with TMDB id 7. -/
def c6_m1 : MovieRec :=
  { type := some "movie", history_id := some 201, title := some "C"
    year := some 2010, ids := some { tmdb := some 7 }
    watched_on := some "2024-06-01T10:00:00Z" }

/-- A second watch of the same movie in the same fetched batch. -/
def c6_m2 : MovieRec :=
  { c6_m1 with history_id := some 202, watched_on := some "2024-06-02T10:00:00Z" }

/-! # Helper lemmas -/

theorem list_set_self {α : Type} : ∀ (l : List α) (i : Nat) (a : α),
    l[i]? = some a → l.set i a = l := by
  intro l
  induction l with
  | nil => intro i a h; cases i <;> simp at h
  | cons x xs ih =>
    intro i a h
    cases i with
    | zero => simp at h; simp [List.set, h]
    | succ n => simp at h; simp [List.set, ih n a h]

theorem nodup_append_singleton {α : Type} (l : List α) (a : α)
    (h1 : l.Nodup) (h2 : a ∉ l) : (l ++ [a]).Nodup := by
  rw [List.nodup_append]
  refine ⟨h1, List.nodup_singleton a, ?_⟩
  intro x hx hxa
  simp only [List.mem_singleton] at hxa
  subst hxa
  exact h2 hx

/-! # Merge lemmas (`add_or_update_verbose`) -/

theorem buildIndexAux_some {α K : Type} [DecidableEq K] (key : α → K) :
    ∀ (rs : List α) (start : Nat) (m : K → Option Nat) (q : K) (j : Nat),
      buildIndexAux key rs start m q = some j →
      (∃ t, ∃ h : t < rs.length, j = start + t ∧ key rs[t] = q) ∨ m q = some j := by
  intro rs
  induction rs with
  | nil => intro start m q j h; right; simpa [buildIndexAux] using h
  | cons r rest ih =>
    intro start m q j h
    have h' := ih (start + 1) (fun q' => if q' = key r then some start else m q') q j
      (by simpa [buildIndexAux] using h)
    rcases h' with ⟨t, ht, hj, hkey⟩ | hm
    · left
      exact ⟨t + 1, by simpa using Nat.succ_lt_succ ht, by omega, by simpa using hkey⟩
    · replace hm : (if q = key r then some start else m q) = some j := hm
      by_cases hq : q = key r
      · left
        refine ⟨0, by simp, ?_, ?_⟩
        · rw [if_pos hq] at hm
          injection hm with h2
          omega
        · simpa using hq.symm
      · right
        rw [if_neg hq] at hm
        exact hm

theorem buildIndexAux_none {α K : Type} [DecidableEq K] (key : α → K) :
    ∀ (rs : List α) (start : Nat) (m : K → Option Nat) (q : K),
      buildIndexAux key rs start m q = none → q ∉ rs.map key ∧ m q = none := by
  intro rs
  induction rs with
  | nil => intro start m q h; simpa [buildIndexAux] using h
  | cons r rest ih =>
    intro start m q h
    have h' := ih (start + 1) (fun q' => if q' = key r then some start else m q') q
      (by simpa [buildIndexAux] using h)
    obtain ⟨hmem, hcond⟩ := h'
    replace hcond : (if q = key r then some start else m q) = none := hcond
    by_cases hq : q = key r
    · rw [if_pos hq] at hcond; exact absurd hcond (by simp)
    · rw [if_neg hq] at hcond
      refine ⟨?_, hcond⟩
      simp only [List.map_cons, List.mem_cons]
      rintro (h1 | h2)
      · exact hq h1
      · exact hmem h2

theorem buildIndex_some {α K : Type} [DecidableEq K] (key : α → K)
    (records : List α) (q : K) (j : Nat) (h : buildIndex key records q = some j) :
    (records.map key)[j]? = some q := by
  rcases buildIndexAux_some key records 0 (fun _ => none) q j h with ⟨t, ht, hj, hkey⟩ | hm
  · have hjt : j = t := by omega
    subst hjt
    have hlt : j < (records.map key).length := by simpa using ht
    rw [List.getElem?_eq_getElem hlt]
    simpa using hkey
  · simp at hm

theorem buildIndex_none {α K : Type} [DecidableEq K] (key : α → K)
    (records : List α) (q : K) (h : buildIndex key records q = none) :
    q ∉ records.map key :=
  (buildIndexAux_none key records 0 (fun _ => none) q h).1

theorem aouLoop_keys_nodup {α K : Type} [DecidableEq K] (key : α → K) :
    ∀ (items records : List α) (index : K → Option Nat) (nC uC : Nat),
      (records.map key).Nodup →
      (∀ k i, index k = some i → (records.map key)[i]? = some k) →
      (∀ k, index k = none → k ∉ records.map key) →
      ((aouLoop key records index nC uC items).records.map key).Nodup := by
  intro items
  induction items with
  | nil => intro records index nC uC h1 _ _; simpa [aouLoop] using h1
  | cons it rest ih =>
    intro records index nC uC h1 h2 h3
    cases hidx : index (key it) with
    | some i =>
      have hgi : (records.map key)[i]? = some (key it) := h2 _ _ hidx
      have hset : (records.set i it).map key = records.map key := by
        rw [List.map_set]
        exact list_set_self _ _ _ hgi
      have := ih (records.set i it) index nC (uC + 1)
        (by rw [hset]; exact h1)
        (by intro k j hj; rw [hset]; exact h2 k j hj)
        (by intro k hk; rw [hset]; exact h3 k hk)
      simpa [aouLoop, hidx] using this
    | none =>
      have hk : key it ∉ records.map key := h3 _ hidx
      have hmap : (records ++ [it]).map key = records.map key ++ [key it] := by simp
      have hlen : (records.map key).length = records.length := List.length_map _ _
      have h1' : ((records ++ [it]).map key).Nodup := by
        rw [hmap]; exact nodup_append_singleton _ _ h1 hk
      have h2' : ∀ k j,
          (if k = key it then some records.length else index k) = some j →
          ((records ++ [it]).map key)[j]? = some k := by
        intro k j hj
        rw [hmap]
        by_cases hke : k = key it
        · subst hke
          rw [if_pos rfl] at hj
          injection hj with hj'
          subst hj'
          rw [← hlen]
          exact List.getElem?_concat_length _ _
        · rw [if_neg hke] at hj
          have hg := h2 k j hj
          have hjlt : j < (records.map key).length := (List.getElem?_eq_some.mp hg).1
          rw [List.getElem?_append_left hjlt]
          exact hg
      have h3' : ∀ k,
          (if k = key it then some records.length else index k) = none →
          k ∉ (records ++ [it]).map key := by
        intro k hk'
        by_cases hke : k = key it
        · rw [if_pos hke] at hk'; exact absurd hk' (by simp)
        · rw [if_neg hke] at hk'
          have hnm := h3 k hk'
          rw [hmap]
          simp only [List.mem_append, List.mem_singleton]
          rintro (h | h)
          · exact hnm h
          · exact hke h
      have := ih (records ++ [it])
        (fun q => if q = key it then some records.length else index q) (nC + 1) uC
        h1' (fun k j hj => h2' k j hj) (fun k hk' => h3' k hk')
      simpa [aouLoop, hidx] using this

/-! # Lemmas about `dedupe_merge` -/

theorem dedupeLoop_eq_append :
    ∀ (items : List Scrobble)
      (seen : List (Option String × Option String × Option String × Option String))
      (merged : List Scrobble),
      dedupeLoop seen merged items = merged ++ dedupNew seen items := by
  intro items
  induction items with
  | nil => intro seen merged; simp [dedupeLoop, dedupNew]
  | cons e rest ih =>
    intro seen merged
    by_cases h : scrobble_key e ∈ seen
    · simp [dedupeLoop, dedupNew, h, ih]
    · simp [dedupeLoop, dedupNew, h, ih]

theorem dedupNew_key_not_seen :
    ∀ (items : List Scrobble)
      (seen : List (Option String × Option String × Option String × Option String))
      (e : Scrobble), e ∈ dedupNew seen items → scrobble_key e ∉ seen := by
  intro items
  induction items with
  | nil => intro seen e he; simp [dedupNew] at he
  | cons x rest ih =>
    intro seen e he
    by_cases h : scrobble_key x ∈ seen
    · exact ih seen e (by simpa [dedupNew, h] using he)
    · have he' : e = x ∨ e ∈ dedupNew (scrobble_key x :: seen) rest := by
        simpa [dedupNew, h] using he
      rcases he' with rfl | hmem
      · exact h
      · intro hc
        exact ih _ e hmem (List.mem_cons_of_mem _ hc)

theorem dedupNew_subset :
    ∀ (items : List Scrobble)
      (seen : List (Option String × Option String × Option String × Option String))
      (e : Scrobble), e ∈ dedupNew seen items → e ∈ items := by
  intro items
  induction items with
  | nil => intro seen e he; simp [dedupNew] at he
  | cons x rest ih =>
    intro seen e he
    by_cases h : scrobble_key x ∈ seen
    · exact List.mem_cons_of_mem _ (ih seen e (by simpa [dedupNew, h] using he))
    · have he' : e = x ∨ e ∈ dedupNew (scrobble_key x :: seen) rest := by
        simpa [dedupNew, h] using he
      rcases he' with rfl | hmem
      · exact List.mem_cons_self _ _
      · exact List.mem_cons_of_mem _ (ih _ e hmem)

/-! # Cursor lemmas -/

theorem newest_go_lb :
    ∀ (items : List (Option Int)) (W : Int) (acc : Option Int) (n : Int),
      (∀ t ∈ items, ∀ u : Int, t = some u → W ≤ u) →
      (∀ m : Int, acc = some m → W ≤ m) →
      newest_go acc items = some n → W ≤ n := by
  intro items
  induction items with
  | nil =>
    intro W acc n _ hacc h
    exact hacc n (by simpa [newest_go] using h)
  | cons ts rest ih =>
    intro W acc n hits hacc h
    have hhead : ∀ u : Int, ts = some u → W ≤ u := hits ts (List.mem_cons_self _ _)
    have htail : ∀ t ∈ rest, ∀ u : Int, t = some u → W ≤ u :=
      fun t ht => hits t (List.mem_cons_of_mem _ ht)
    cases ts with
    | none => exact ih W acc n htail hacc (by simpa [newest_go] using h)
    | some t =>
      cases acc with
      | none =>
        refine ih W (some t) n htail ?_ (by simpa [newest_go] using h)
        intro m hm
        injection hm with hm'
        exact hm' ▸ hhead t rfl
      | some a =>
        by_cases hgt : t > a
        · refine ih W (some t) n htail ?_ (by simpa [newest_go, hgt] using h)
          intro m hm
          injection hm with hm'
          exact hm' ▸ hhead t rfl
        · refine ih W (some a) n htail ?_ (by simpa [newest_go, hgt] using h)
          intro m hm
          injection hm with hm'
          exact hm' ▸ hacc a rfl

/-! # Claim theorems -/

/-- C1: the claim says a second `reconcile` of the same fetched batch against
the log that resulted from the first run appends zero new records.  On the
code this fails: the first run persists `movie_to_frontend`-mapped records,
which drop `history_id` and `ids` and truncate `watched_on` to a date, so on
the second run the persisted record keys as
`("movie-fallback", title, year, date)` while the refetched event keys as
`("hist", id)` — the same event is appended again (`new_count = 1`, the log
grows to two records). -/
theorem c1_second_run_reappends :
    c1_first_run.new_count = 1 ∧
    c1_second_run.new_count = 1 ∧
    c1_second_run.records.length = 2 ∧
    movie_key (c1_persisted.headD {}) ≠ movie_key c1_event := by decide

/-- C2 counterexample: two events that share the full subject identity
(title, year, the whole `ids` dict) and the same `watched_at`, but carry
different Trakt history ids, both survive reconciliation into the empty log
— the dedup key is the per-watch history id, not the (subject identity,
watched_at) tuple of the §3 invariant. -/
theorem c2_counterexample :
    c2_e1.title = c2_e2.title ∧ c2_e1.year = c2_e2.year ∧
    c2_e1.ids = c2_e2.ids ∧ c2_e1.watched_on = c2_e2.watched_on ∧
    c2_e1 ≠ c2_e2 ∧
    (add_or_update_verbose [] [c2_e1, c2_e2] movie_key).records = [c2_e1, c2_e2] := by
  decide

/-- C2 (amended): reconciliation dedups by the code's identity key
(`movie_key`: remote history id first, then trakt id, then the
title/year/watched_on fallback): merging any batch into a log whose records
have pairwise-distinct keys yields a log whose records still have
pairwise-distinct keys, so at most one record per identity key survives. -/
theorem c2_merge_preserves_key_uniqueness :
    ∀ (records new_items : List MovieRec),
      (records.map movie_key).Nodup →
      (((add_or_update_verbose records new_items movie_key).records).map movie_key).Nodup := by
  intro records new_items h
  exact aouLoop_keys_nodup movie_key new_items records (buildIndex movie_key records) 0 0 h
    (fun k i hk => buildIndex_some movie_key records k i hk)
    (fun k hk => buildIndex_none movie_key records k hk)

/-- Witness for `c2_merge_preserves_key_uniqueness` at a concrete log and a
batch containing a within-batch duplicate. -/
theorem c2_merge_preserves_key_uniqueness_witness :
    (((add_or_update_verbose [c2_e1] [c2_e2, c2_e2] movie_key).records).map movie_key).Nodup :=
  c2_merge_preserves_key_uniqueness [c2_e1] [c2_e2, c2_e2] (by decide)

/-- C3 counterexample: in the trakt merge, a new event whose key matches an
existing record **replaces** it in place (`records[index[k]] = it`) instead
of being discarded: the existing record `c3_old` does not survive unchanged. -/
theorem c3_counterexample :
    movie_key c3_old = movie_key c3_new ∧
    c3_new ≠ c3_old ∧
    (add_or_update_verbose [c3_old] [c3_new] movie_key).records = [c3_new] ∧
    c3_old ∉ (add_or_update_verbose [c3_old] [c3_new] movie_key).records ∧
    (add_or_update_verbose [c3_old] [c3_new] movie_key).upd_count = 1 := by decide

/-- C3 (amended): the lastfm merge (`dedupe_merge`) is genuinely
append-only: the existing log is an unchanged, unreordered prefix of the
result, and every appended record comes from the new batch and has a key
not present in the existing log (a key-matching new event is discarded, not
substituted).  The trakt merge instead upserts in place (see the
counterexample). -/
theorem c3_lastfm_append_only :
    ∀ (existing new_items : List Scrobble),
      (dedupe_merge existing new_items).take existing.length = existing ∧
      ∀ e ∈ (dedupe_merge existing new_items).drop existing.length,
        e ∈ new_items ∧ scrobble_key e ∉ existing.map scrobble_key := by
  intro E N
  have h : dedupe_merge E N = E ++ dedupNew (E.map scrobble_key) N :=
    dedupeLoop_eq_append N (E.map scrobble_key) E
  constructor
  · rw [h, List.take_left]
  · rw [h, List.drop_left]
    intro e he
    exact ⟨dedupNew_subset N _ e he, dedupNew_key_not_seen N _ e he⟩

/-- Witness for `c3_lastfm_append_only`: a batch with one key-duplicate and
one new scrobble against a one-entry log. -/
theorem c3_lastfm_append_only_witness :
    (dedupe_merge [c3_s1] [c3_s1_dup, c3_s2]).take 1 = [c3_s1] ∧
    ∀ e ∈ (dedupe_merge [c3_s1] [c3_s1_dup, c3_s2]).drop 1,
      e ∈ [c3_s1_dup, c3_s2] ∧ scrobble_key e ∉ [c3_s1].map scrobble_key := by
  have h := c3_lastfm_append_only [c3_s1] [c3_s1_dup, c3_s2]
  simpa using h

/-- C4 counterexample: with pre-run watermark 5 (seconds), a fetch that
observes a single event exactly at the watermark (which `start_at = 5`
permits) makes the run write cursor `5 - 1 = 4 < 5`: the post-run watermark
is smaller than the pre-run watermark. -/
theorem c4_counterexample :
    post_run_cursor [some 5] = some 4 ∧ (4 : Int) < 5 := by decide

/-- C4 (amended): the cursor can regress, but by at most the 1-second safety
margin: if every observed `watched_at` is at least the pre-run watermark `W`
(which the `start_at` filter guarantees) and a cursor is written at all,
then the written cursor is at least `W - 1`. -/
theorem c4_cursor_bounded_regression :
    ∀ (W c : Int) (items : List (Option Int)),
      (∀ t ∈ items, ∀ u : Int, t = some u → W ≤ u) →
      post_run_cursor items = some c → W - 1 ≤ c := by
  intro W c items hits h
  unfold post_run_cursor at h
  cases hn : newest_ts items with
  | none => rw [hn] at h; simp at h
  | some n =>
    rw [hn] at h
    simp only [Option.map_some'] at h
    injection h with h'
    have hw : W ≤ n := newest_go_lb items W none n hits (by simp) hn
    omega

/-- Witness for `c4_cursor_bounded_regression` at watermark 5 and one
observed event at 6. -/
theorem c4_cursor_bounded_regression_witness : (5 : Int) - 1 ≤ 5 :=
  c4_cursor_bounded_regression 5 5 [some 6]
    (by
      intro t ht u hu
      simp only [List.mem_singleton] at ht
      subst ht
      injection hu with h2
      omega)
    (by decide)

/-- C5: on a 401 from the activity service, `trakt_get` performs exactly one
token refresh with exactly one credential-file write and retries the
original GET exactly once (the retried response goes through
`raise_for_status` with no further refresh); if the refresh fails (network
error, non-200, or missing tokens), the call raises the fatal
`RuntimeError` with no retry of the GET and no credential write. -/
theorem c5_auth_refresh_once :
    ∀ (statuses : Nat → Nat) (resp : RefreshResp) (w : Bool),
      statuses 0 = 401 →
      (∀ a r : String, resp = .tokens (some a) (some r) → a ≠ "" → r ≠ "" →
        trakt_get statuses resp w true =
          (raise_for_status (statuses 1),
            { get_calls := 2, refresh_calls := 1, token_write_attempts := 1,
              token_write_succeeded := w, msgs := ["Refreshed Trakt access token."] })) ∧
      ((trakt_refresh_tokens resp w).1.ok = false →
        (trakt_get statuses resp w true).1 = .authExpired ∧
        (trakt_get statuses resp w true).2.get_calls = 1 ∧
        (trakt_get statuses resp w true).2.refresh_calls = 1 ∧
        (trakt_get statuses resp w true).2.token_write_attempts = 0) := by
  intro statuses resp w h401
  constructor
  · rintro a r rfl ha hr
    simp [trakt_get, h401, trakt_refresh_tokens, save_tokens_file, ha, hr]
  · intro hfail
    cases resp with
    | netError => simp [trakt_get, h401, trakt_refresh_tokens]
    | httpStatus c => simp [trakt_get, h401, trakt_refresh_tokens]
    | tokens a r =>
      cases a with
      | none => cases r <;> simp [trakt_get, h401, trakt_refresh_tokens]
      | some as =>
        cases r with
        | none => simp [trakt_get, h401, trakt_refresh_tokens]
        | some rs =>
          by_cases hne : as ≠ "" ∧ rs ≠ ""
          · exfalso
            simp [trakt_refresh_tokens, save_tokens_file, hne] at hfail
          · simp [trakt_get, h401, trakt_refresh_tokens, hne]

/-- Witness for `c5_auth_refresh_once`: first GET 401, refresh succeeds,
retried GET 200. -/
theorem c5_auth_refresh_once_witness :
    trakt_get (fun n => if n = 0 then 401 else 200)
        (.tokens (some "A") (some "R")) true true =
      (.resp 200,
        { get_calls := 2, refresh_calls := 1, token_write_attempts := 1,
          token_write_succeeded := true, msgs := ["Refreshed Trakt access token."] }) := by
  have h := (c5_auth_refresh_once (fun n => if n = 0 then 401 else 200)
      (.tokens (some "A") (some "R")) true rfl).1 "A" "R" rfl (by decide) (by decide)
  rw [h]
  decide

/-- C7 counterexample: at the concrete production paths, the write section
contains writes but not a single copy action — no backup is taken before
the first mutation. -/
theorem c7_counterexample :
    FsAction.writeFile "_data/watched_movies.yml" ∈
      write_section_actions "_data/watched_movies.yml" "_data/watched_episodes.yml" ∧
    (write_section_actions "_data/watched_movies.yml"
        "_data/watched_episodes.yml").countP FsAction.isCopy = 0 := by decide

/-- C7 (amended): the persistence layer performs no backup at all: for any
target paths, the write section's filesystem mutations are exactly
mkdir-parents followed by a full in-place overwrite for each of the two
YAML files, and contain no copy action. -/
theorem c7_no_backup_before_write :
    ∀ (movies_yaml episodes_yaml : String),
      (write_section_actions movies_yaml episodes_yaml).countP FsAction.isCopy = 0 ∧
      write_section_actions movies_yaml episodes_yaml =
        [.mkdirParents movies_yaml, .writeFile movies_yaml,
         .mkdirParents episodes_yaml, .writeFile episodes_yaml] := by
  intro mp ep
  exact ⟨rfl, rfl⟩

/-- C8 counterexample: a persisted log whose content parses to a non-empty
mapping (not a list) is **not** replaced by the empty log and produces no
warning — `yaml.safe_load(...) or []` passes any truthy value through. -/
theorem c8_counterexample :
    yaml_load (.parsed (.dictVal [("foo", "bar")])) = (.dictVal [("foo", "bar")], false) ∧
    (YamlContent.dictVal [("foo", "bar")]) ≠ .listVal 0 := by decide

/-- C8 (amended): loading never raises; an unreadable file yields the empty
log with a warning; a missing file or a falsy parse (null, empty list,
empty mapping, empty string) yields the empty log silently; any truthy
parse result — list or not — is returned unchanged. -/
theorem c8_load_characterization :
    yaml_load .missing = (.listVal 0, false) ∧
    yaml_load .unreadable = (.listVal 0, true) ∧
    (∀ v : YamlContent, yamlTruthy v = false → yaml_load (.parsed v) = (.listVal 0, false)) ∧
    (∀ v : YamlContent, yamlTruthy v = true → yaml_load (.parsed v) = (v, false)) := by
  refine ⟨rfl, rfl, ?_, ?_⟩ <;> intro v hv <;> simp [yaml_load, hv]

/-- Witness for `c8_load_characterization` at an empty mapping (falsy) and a
non-empty scalar (truthy). -/
theorem c8_load_characterization_witness :
    yaml_load (.parsed (.dictVal [])) = (.listVal 0, false) ∧
    yaml_load (.parsed (.strVal "x")) = (.strVal "x", false) :=
  ⟨c8_load_characterization.2.2.1 (.dictVal []) (by decide),
   c8_load_characterization.2.2.2 (.strVal "x") (by decide)⟩

/-- C9: when the refresh token-endpoint call succeeds, `trakt_refresh_tokens`
reports success, installs the new credential pair, emits only the success
log line, and attempts exactly one token-file write — all independently of
whether that write succeeds; a failed write is silently swallowed
(`except Exception: pass`) with no error or warning surfaced. -/
theorem c9_token_write_failure_silent :
    ∀ (a r : String) (w : Bool), a ≠ "" → r ≠ "" →
      (trakt_refresh_tokens (.tokens (some a) (some r)) w).1 = ⟨true, some a, some r⟩ ∧
      (trakt_refresh_tokens (.tokens (some a) (some r)) w).2.msgs =
        ["Refreshed Trakt access token."] ∧
      (trakt_refresh_tokens (.tokens (some a) (some r)) w).2.token_write_attempts = 1 ∧
      (trakt_refresh_tokens (.tokens (some a) (some r)) w).2.token_write_succeeded = w := by
  intro a r w ha hr
  simp [trakt_refresh_tokens, save_tokens_file, ha, hr]

/-- Witness for `c9_token_write_failure_silent` with a failing write. -/
theorem c9_token_write_failure_silent_witness :
    (trakt_refresh_tokens (.tokens (some "A") (some "R")) false).1 =
      ⟨true, some "A", some "R"⟩ ∧
    (trakt_refresh_tokens (.tokens (some "A") (some "R")) false).2.msgs =
      ["Refreshed Trakt access token."] ∧
    (trakt_refresh_tokens (.tokens (some "A") (some "R")) false).2.token_write_attempts = 1 ∧
    (trakt_refresh_tokens (.tokens (some "A") (some "R")) false).2.token_write_succeeded =
      false :=
  c9_token_write_failure_silent "A" "R" false (by decide) (by decide)

/-- C10: the incremental music sync fetches with `from = latest + 1` where
`latest` is the newest persisted play timestamp, and under the service model
every fetched event has a strictly larger timestamp than `latest` — in
particular an event sharing the exact same second as the newest persisted
entry is never refetched. -/
theorem c10_incremental_no_boundary_overlap :
    ∀ (rows : List (Option Int)) (latest : Int) (remote : List Int),
      newest_uts_from_files rows = some latest →
      incremental_from_uts rows = some (latest + 1) ∧
      (∀ t ∈ lastfm_fetch remote (incremental_from_uts rows), latest < t) ∧
      latest ∉ lastfm_fetch remote (incremental_from_uts rows) := by
  intro rows latest remote h
  have h1 : incremental_from_uts rows = some (latest + 1) := by
    simp [incremental_from_uts, h]
  have h2 : ∀ t ∈ lastfm_fetch remote (incremental_from_uts rows), latest < t := by
    intro t ht
    rw [h1] at ht
    simp only [lastfm_fetch, List.mem_filter, decide_eq_true_eq] at ht
    omega
  refine ⟨h1, h2, ?_⟩
  intro hmem
  exact absurd (h2 latest hmem) (by omega)

/-- `find_by_imdb` preserves the request invariant and leaves the two movie
caches untouched. -/
theorem find_by_imdb_inv (o : PosterOracle) (S : PosterState) (im : String)
    (E : List CatReq) (h : PosterInv S E) :
    PosterInv (find_by_imdb o S im).2.1 (E ++ (find_by_imdb o S im).2.2) ∧
    (find_by_imdb o S im).2.1.movie_def_cache = S.movie_def_cache ∧
    (find_by_imdb o S im).2.1.movie_de_cache = S.movie_de_cache := by
  obtain ⟨hn, hf, hd, hl⟩ := h
  unfold find_by_imdb
  cases hc : S.find_cache im with
  | some v =>
    exact ⟨⟨by simpa using hn, by simpa using hf, by simpa using hd, by simpa using hl⟩,
      rfl, rfl⟩
  | none =>
    refine ⟨⟨?_, ?_, ?_, ?_⟩, rfl, rfl⟩
    · apply nodup_append_singleton _ _ hn
      intro hmem
      have := hf im hmem
      rw [hc] at this
      simp at this
    · intro i hi
      rcases List.mem_append.mp hi with hi | hi
      · by_cases he : i = im
        · subst he; simp
        · have := hf i hi
          simpa [he] using this
      · simp only [List.mem_singleton, CatReq.findByImdb.injEq] at hi
        subst hi
        simp
    · intro t ht
      rcases List.mem_append.mp ht with ht | ht
      · exact hd t ht
      · simp at ht
    · intro t l hl'
      rcases List.mem_append.mp hl' with hl' | hl'
      · exact hl t l hl'
      · simp at hl'

/-- The `movie_def_cache` step preserves the request invariant and leaves
the other two caches untouched. -/
theorem movieDefStep_inv (o : PosterOracle) (S : PosterState) (mid : Int)
    (E : List CatReq) (h : PosterInv S E) :
    PosterInv (movieDefStep o S mid).1 (E ++ (movieDefStep o S mid).2) ∧
    (movieDefStep o S mid).1.find_cache = S.find_cache ∧
    (movieDefStep o S mid).1.movie_de_cache = S.movie_de_cache := by
  obtain ⟨hn, hf, hd, hl⟩ := h
  unfold movieDefStep
  cases hc : S.movie_def_cache mid with
  | some v =>
    exact ⟨⟨by simpa using hn, by simpa using hf, by simpa using hd, by simpa using hl⟩,
      rfl, rfl⟩
  | none =>
    refine ⟨⟨?_, ?_, ?_, ?_⟩, rfl, rfl⟩
    · apply nodup_append_singleton _ _ hn
      intro hmem
      have := hd mid hmem
      rw [hc] at this
      simp at this
    · intro i hi
      rcases List.mem_append.mp hi with hi | hi
      · exact hf i hi
      · simp at hi
    · intro t ht
      rcases List.mem_append.mp ht with ht | ht
      · by_cases he : t = mid
        · subst he; simp
        · have := hd t ht
          simpa [he] using this
      · simp only [List.mem_singleton, CatReq.movieDef.injEq] at ht
        subst ht
        simp
    · intro t l hl'
      rcases List.mem_append.mp hl' with hl' | hl'
      · exact hl t l hl'
      · simp at hl'

/-- The `movie_de_cache` step preserves the request invariant and leaves the
other two caches untouched. -/
theorem movieDeStep_inv (o : PosterOracle) (lang : String) (S : PosterState) (mid : Int)
    (E : List CatReq) (h : PosterInv S E) :
    PosterInv (movieDeStep o lang S mid).1 (E ++ (movieDeStep o lang S mid).2) ∧
    (movieDeStep o lang S mid).1.find_cache = S.find_cache ∧
    (movieDeStep o lang S mid).1.movie_def_cache = S.movie_def_cache := by
  obtain ⟨hn, hf, hd, hl⟩ := h
  unfold movieDeStep
  cases hc : S.movie_de_cache mid with
  | some v =>
    exact ⟨⟨by simpa using hn, by simpa using hf, by simpa using hd, by simpa using hl⟩,
      rfl, rfl⟩
  | none =>
    refine ⟨⟨?_, ?_, ?_, ?_⟩, rfl, rfl⟩
    · apply nodup_append_singleton _ _ hn
      intro hmem
      have := hl mid lang hmem
      rw [hc] at this
      simp at this
    · intro i hi
      rcases List.mem_append.mp hi with hi | hi
      · exact hf i hi
      · simp at hi
    · intro t ht
      rcases List.mem_append.mp ht with ht | ht
      · exact hd t ht
      · simp at ht
    · intro t l hl'
      rcases List.mem_append.mp hl' with hl' | hl'
      · by_cases he : t = mid
        · subst he; simp
        · have := hl t l hl'
          simpa [he] using this
      · simp only [List.mem_singleton, CatReq.movieLang.injEq] at hl'
        obtain ⟨rfl, rfl⟩ := hl'
        simp

/-- `resolveMid` preserves the request invariant and leaves the two movie
caches untouched. -/
theorem resolveMid_inv (o : PosterOracle) (S : PosterState) (m : MovieRec)
    (E : List CatReq) (h : PosterInv S E) :
    PosterInv (resolveMid o S m).2.1 (E ++ (resolveMid o S m).2.2) ∧
    (resolveMid o S m).2.1.movie_def_cache = S.movie_def_cache ∧
    (resolveMid o S m).2.1.movie_de_cache = S.movie_de_cache := by
  have hnil : PosterInv S (E ++ []) := by simpa using h
  cases hti : pyTruthyInt m.tmdb_id with
  | some t =>
    have hrm : resolveMid o S m = (some t, S, []) := by
      simp only [resolveMid, hti]
    rw [hrm]
    exact ⟨hnil, rfl, rfl⟩
  | none =>
    cases hts : pyTruthyStr m.imdb with
    | some im =>
      have hfind := find_by_imdb_inv o S im E h
      rcases hfd : find_by_imdb o S im with ⟨res, S', rq⟩
      rw [hfd] at hfind
      cases res with
      | nil =>
        have hrm : resolveMid o S m = (none, S', rq) := by
          simp only [resolveMid, hti, hts, hfd]
        rw [hrm]
        exact hfind
      | cons hit rest =>
        have hrm : resolveMid o S m = (some hit, S', rq) := by
          simp only [resolveMid, hti, hts, hfd]
        rw [hrm]
        exact hfind
    | none =>
      have hrm : resolveMid o S m = (none, S, []) := by
        simp only [resolveMid, hti, hts]
      rw [hrm]
      exact ⟨hnil, rfl, rfl⟩

/-- One movie-loop iteration preserves the request invariant. -/
theorem posterStep_inv (o : PosterOracle) (lang : String) (S : PosterState)
    (m : MovieRec) (E : List CatReq) (h : PosterInv S E) :
    PosterInv (posterStep o lang S m).1 (E ++ (posterStep o lang S m).2) := by
  have hres := resolveMid_inv o S m E h
  rcases hrm : resolveMid o S m with ⟨mid?, S1, reqs1⟩
  rw [hrm] at hres
  cases mid? with
  | none =>
    have hps : posterStep o lang S m = (S1, reqs1) := by
      simp only [posterStep, hrm]
    rw [hps]
    exact hres.1
  | some mid =>
    have h2 := movieDefStep_inv o S1 mid (E ++ reqs1) hres.1
    rcases hds : movieDefStep o S1 mid with ⟨S2, reqs2⟩
    rw [hds] at h2
    have h3 := movieDeStep_inv o lang S2 mid (E ++ reqs1 ++ reqs2) h2.1
    rcases hls : movieDeStep o lang S2 mid with ⟨S3, reqs3⟩
    rw [hls] at h3
    have hps : posterStep o lang S m = (S3, reqs1 ++ reqs2 ++ reqs3) := by
      simp only [posterStep, hrm, hds, hls]
    rw [hps]
    simpa [List.append_assoc] using h3.1

/-- The whole movie loop preserves the request invariant. -/
theorem posterMovies_inv (o : PosterOracle) (lang : String) :
    ∀ (movies : List MovieRec) (S : PosterState) (E : List CatReq),
      PosterInv S E →
      PosterInv (posterMovies o lang S movies).1 (E ++ (posterMovies o lang S movies).2) := by
  intro movies
  induction movies with
  | nil => intro S E h; simpa [posterMovies] using h
  | cons m rest ih =>
    intro S E h
    have h1 := posterStep_inv o lang S m E h
    rcases hst : posterStep o lang S m with ⟨S', rq⟩
    rw [hst] at h1
    have h2 := ih S' (E ++ rq) h1
    rcases hrest : posterMovies o lang S' rest with ⟨S'', rqs⟩
    rw [hrest] at h2
    simpa [posterMovies, hst, hrest, List.append_assoc] using h2

/-- C6 counterexample: in `trakt_sync.py`, `tmdb_get` is uncached, so two
events in the same run referring to the same movie (TMDB id 7) cause two
identical `/movie/7` requests in the same language — the same lookup shape
is queried twice. -/
theorem c6_counterexample :
    sync_enrich_movie_requests c6_oracle [c6_m1, c6_m2] =
      [⟨"/movie/7", "de-DE", none, none⟩, ⟨"/movie/7", "de-DE", none, none⟩] ∧
    ¬ (sync_enrich_movie_requests c6_oracle [c6_m1, c6_m2]).Nodup := by decide

/-- C6 (amended): in `enrich_posters.py` the memoization claim holds: over
any oracle, display language and input rows, the movie loop starting from
empty caches issues pairwise-distinct catalog requests — at most one request
per lookup shape (find-by-imdb key, detail id, or detail id + language) per
run.  `trakt_sync.py`'s own TMDB path is uncached (see the counterexample). -/
theorem c6_poster_cache_no_duplicate_requests :
    ∀ (o : PosterOracle) (lang : String) (movies : List MovieRec),
      ((posterMovies o lang emptyPosterState movies).2).Nodup := by
  intro o lang movies
  have h0 : PosterInv emptyPosterState [] := by
    refine ⟨List.nodup_nil, ?_, ?_, ?_⟩
    · intro i hi; simp at hi
    · intro t ht; simp at ht
    · intro t l hmem; simp at hmem
  have h := posterMovies_inv o lang movies emptyPosterState [] h0
  simpa using h.1

/-- Witness for `c10_incremental_no_boundary_overlap`: the newest persisted
play is at 9; the remote history contains events at 9 and 10; only 10 is
fetched. -/
theorem c10_incremental_no_boundary_overlap_witness :
    incremental_from_uts [some 9, none, some 4] = some 10 ∧
    (9 : Int) ∉ lastfm_fetch [9, 10, 3] (incremental_from_uts [some 9, none, some 4]) := by
  have h := c10_incremental_no_boundary_overlap [some 9, none, some 4] 9 [9, 10, 3]
    (by decide)
  exact ⟨h.1, h.2.2⟩

end MediaArchive
